import Mathlib

/-
  Verification development for the qwerty_assistant repository.

  This file gives a shallow embedding of the repository's core — the two-stage
  hybrid search engine (app/services/search.py and its historical variant
  app/services/search_combined.py), the vector-literal encoders
  (search.py's to_pgvector and the str-based _vec_to_pg_literal of
  app/services/utils.py / app/services/articles.py), the tool-calling agent
  loop (app/llm/agent_2.py and the legacy app/llm/agent.py), and the
  related-articles queries (app/services/relations.py and
  app/services/articles_related.py) — and proves properties of those
  definitions.

  Modelling conventions:
  * Python floats are embedded as rationals; external effects (the database
    queries, the embedding provider, json.loads, math.exp, the pgvector
    distance operator, the LLM) are oracle parameters, so theorems quantify
    over every possible behaviour of those collaborators.
  * Raising an exception is modelled as the error branch of Except; a Python
    function that may raise becomes a function into Except String.
  * json.dumps applied to a tool result before storing it in a tool message is
    kept as the structured value itself (serialization is injective and no
    claim inspects the serialized text).
-/

namespace Qwerty

/-! ### Python-value model shared by the agent loop embedding -/

/-- Minimal model of the Python values that flow through the agent loop:
strings, integers, booleans, lists and string-keyed dicts. -/
inductive PyVal where
  | str (s : String)
  | int (n : Int)
  | bool (b : Bool)
  | list (items : List PyVal)
  | dict (fields : List (String × PyVal))

/-- Keyword arguments of a tool call (the dict produced by
json.loads(tool_call.function.arguments)). -/
abbrev Kwargs := List (String × PyVal)

/-- A tool as dispatched by the agent loop: called with keyword arguments, it
either returns a value or raises an exception carrying a message
(the error branch of Except). -/
abbrev ToolFn := Kwargs → Except String PyVal

/-- The structured error-shaped result the agent loop substitutes for a failed
tool call: the Python dict with the single key "error". -/
def errDict (msg : String) : PyVal := PyVal.dict [("error", PyVal.str msg)]

/-! ### OpenAI-style chat messages (agent_2.py) -/

/-- One tool-call request inside an assistant message, as in the OpenAI
function-calling shape: a call id, a function name, and the raw JSON-encoded
arguments string. -/
structure ToolCall where
  id : String
  name : String
  arguments : String
deriving DecidableEq

/-- The part of a model response the loop inspects: msg.content (the empty
string models Python None or "", both falsy in the `if msg.content:` test) and
msg.tool_calls (the empty list models None or []). -/
structure AssistantMsg where
  content : String
  tool_calls : List ToolCall

/-- A message of the conversation history built by agent_loop in agent_2.py:
the seeded system and user messages, the appended assistant tool-call message,
and the per-call tool-result messages carrying role, tool_call_id, name and
the (structured) content. -/
inductive ChatMsg where
  | system (content : String)
  | user (content : String)
  | assistant (content : String) (tool_calls : List ToolCall)
  | tool (tool_call_id : String) (name : String) (content : PyVal)

/-! ### Tool dispatch and the agent loop of agent_2.py -/

/-- The per-call dispatch of agent_2.py, lines 278-307: json.loads the
arguments (a parse failure becomes the structured parse-error result), look
the name up in FUNCTIONS (an unknown name becomes the structured
unknown-function result), call the tool (an exception becomes the structured
error result), and wrap everything as the tool-result message tagged with the
originating call's id.  The json.loads oracle is the parseArgs parameter; the
process-wide registry is the funcs parameter. -/
def dispatchToolCall (parseArgs : String → Except String Kwargs)
    (funcs : String → Option ToolFn) (tc : ToolCall) : ChatMsg :=
  let result : PyVal :=
    match parseArgs tc.arguments with
    | Except.error e => errDict ("Ошибка разбора аргументов: " ++ e)
    | Except.ok fargs =>
      match funcs tc.name with
      | none => errDict ("⚠️ Неизвестная функция: " ++ tc.name)
      | some fn =>
        match fn fargs with
        | Except.ok v => v
        | Except.error e => errDict e
  ChatMsg.tool tc.id tc.name result

/-- One turn's extension of the conversation history when the model requested
tool calls (agent_2.py lines 273-310): append the assistant tool-call message,
then one tool-result message per requested call, in request order. -/
def stepHistory (parseArgs : String → Except String Kwargs)
    (funcs : String → Option ToolFn) (history : List ChatMsg)
    (msg : AssistantMsg) : List ChatMsg :=
  (history ++ [ChatMsg.assistant msg.content msg.tool_calls])
    ++ msg.tool_calls.map (dispatchToolCall parseArgs funcs)

/-- The fixed budget-exhaustion fallback string returned by both agent loops
when max_turns is exhausted without a final answer (agent_2.py line 313,
agent.py line 160). -/
def budget_fallback : String := "⚠️ Агент не смог достичь цели за отведённые шаги"

/-- The fixed system instructions seeded as the first message of the
conversation (agent_2.py lines 240-254); the turn budget is interpolated as
max_turns - 1. -/
def system_prompt (max_turns : Nat) : String :=
  "Ты — помощник автора научно-популярного блога. Он пишет статьи для своего блога с 2017 года, выбирая только интересные ему события. "
    ++ "Используй доступные функции, чтобы работать с базой его статей."
    ++ "Ограничения:"
    ++ "- ты можешь сделать не более " ++ toString (max_turns - 1)
    ++ " вызовов функций (например, поиска или получения связанных статей) за весь запуск, если тебе не хватает данных, остановись и дай ответ по имеющейся информации"
    ++ "- ты не имеешь права делать выводы только на основе кратких описаний, всегда проверяй полный текст, в т.ч. оригинальной статьи"
    ++ "- все запросы к функциям поиска (combined_search) нужно формировать на русском языке, так как база и индексы русскоязычные; старайся использовать короткие запросы"
    ++ "- разрешён только один основной поисковый запрос + при необходимости одно уточнение (не более 2 запросов подряд)"
    ++ "- когда пишешь текст для телеграм, делай короткий пост на 500-900 знаков, который развивает тему связи и сосредотачивается на самом важном и удивительном. Пиши заголовок / хук"
    ++ "- используй 2-4 эмодзи, стиль должен быть увлекательный, но без излишней игривости-"
    ++ "- делай отсылки к годам исследований и оценивай развитие науки во времени"
    ++ "- сохрани научную точность, но избегай сложных терминов, их лучше пояснять простыми словами"
    ++ "- избегай восторженных выводов, но формулируй финальую мысль в духе развития науки"

/-- The seeded conversation state of agent_loop: the fixed system instructions
followed by the user's goal (agent_2.py lines 239-257). -/
def seed_history (user_goal : String) (max_turns : Nat) : List ChatMsg :=
  [ChatMsg.system (system_prompt max_turns), ChatMsg.user user_goal]

/-- The turn recursion of agent_loop in agent_2.py (lines 259-313).  The model
oracle receives the turn index and the current history and yields the
response; the pair returned is the final answer together with the number of
model-inference calls performed.  On non-empty content the loop returns that
content immediately; on tool calls it extends the history via stepHistory and
continues; on neither it just continues; on exhausted fuel it returns the
fixed fallback. -/
def agent_loop_aux (model : Nat → List ChatMsg → AssistantMsg)
    (parseArgs : String → Except String Kwargs) (funcs : String → Option ToolFn) :
    List ChatMsg → Nat → Nat → String × Nat
  | _, turn, 0 => (budget_fallback, turn)
  | history, turn, fuel + 1 =>
    let msg := model turn history
    if msg.content ≠ "" then (msg.content, turn + 1)
    else if msg.tool_calls ≠ [] then
      agent_loop_aux model parseArgs funcs
        (stepHistory parseArgs funcs history msg) (turn + 1) fuel
    else
      agent_loop_aux model parseArgs funcs history (turn + 1) fuel

/-- agent_loop(user_goal, max_turns) of agent_2.py: run the turn recursion
from the seeded history with a budget of max_turns turns. -/
def agent_loop (model : Nat → List ChatMsg → AssistantMsg)
    (parseArgs : String → Except String Kwargs) (funcs : String → Option ToolFn)
    (user_goal : String) (max_turns : Nat) : String × Nat :=
  agent_loop_aux model parseArgs funcs (seed_history user_goal max_turns) 0 max_turns

/-- The process-wide FUNCTIONS registry of agent_2.py (lines 180-184): the
fixed mapping of the three advertised tool names to their implementations
(each an external, effectful function, hence a parameter). -/
def FUNCTIONS (fetch_articles get_related_articles combined_search : ToolFn) :
    String → Option ToolFn :=
  fun name =>
    if name = "fetch_articles" then some fetch_articles
    else if name = "get_related_articles" then some get_related_articles
    else if name = "combined_search" then some combined_search
    else none

/-! ### The legacy agent loop of agent.py -/

/-- The parsed JSON action returned by call_llm in agent.py: either the
finish action with its final text, a function call with name and args, or
anything else (an action string that is neither "finish" nor "function",
which the loop silently skips). -/
inductive V1Action where
  | finish (final_text : String)
  | callFn (name : String) (args : Kwargs)
  | other

/-- One record of agent.py's state["history"]: the called function, its
arguments, its result and the turn index. -/
structure V1HistEntry where
  function : String
  args : Kwargs
  result : PyVal
  step : Nat

/-- MAX_TURNS of agent.py (line 11). -/
def MAX_TURNS : Nat := 5

/-- The turn recursion of agent_loop in agent.py (lines 82-160).  Note the
difference from agent_2.py: an unknown function name executes `break`, leaving
the for-loop and returning the fallback string — no error record is appended
and no further model call is made.  A raised tool exception is converted to
the structured error dict and recorded in the history.  Returns the final
answer, the number of model-inference calls, and the final history. -/
def agent_loop_v1_aux (model : Nat → List V1HistEntry → V1Action)
    (funcs : String → Option ToolFn) :
    List V1HistEntry → Nat → Nat → String × Nat × List V1HistEntry
  | hist, turn, 0 => (budget_fallback, turn, hist)
  | hist, turn, fuel + 1 =>
    match model turn hist with
    | V1Action.finish t => (t, turn + 1, hist)
    | V1Action.callFn fname fargs =>
      match funcs fname with
      | none => (budget_fallback, turn + 1, hist)
      | some fn =>
        let result := match fn fargs with
          | Except.ok v => v
          | Except.error e => errDict e
        agent_loop_v1_aux model funcs
          (hist ++ [⟨fname, fargs, result, turn⟩]) (turn + 1) fuel
    | V1Action.other => agent_loop_v1_aux model funcs hist (turn + 1) fuel

/-- agent_loop(user_goal) of agent.py: MAX_TURNS turns from an empty history. -/
def agent_loop_v1 (model : Nat → List V1HistEntry → V1Action)
    (funcs : String → Option ToolFn) : String × Nat × List V1HistEntry :=
  agent_loop_v1_aux model funcs [] 0 MAX_TURNS

/-! ### Vector-literal encoders -/

/-- Round half to even at eight fractional digits: the rounding performed by
Python's format(float(x), ".8f") on the value x * 10^8.  Implemented on the
numerator and denominator with integer floor division so that it evaluates by
kernel reduction. -/
def roundHalfEven8 (q : ℚ) : Int :=
  let n : Int := q.num * 100000000
  let d : Int := (q.den : Int)
  let f : Int := Int.fdiv n d
  let r : Int := n - f * d
  if 2 * r < d then f
  else if d < 2 * r then f + 1
  else if f % 2 = 0 then f else f + 1

/-- The eight fractional digits of m (viewed modulo 10^8), most significant
first: the fixed-width zero-padded fraction written by ".8f". -/
def frac8 (m : Nat) : String :=
  String.mk [Nat.digitChar (m / 10000000 % 10), Nat.digitChar (m / 1000000 % 10),
    Nat.digitChar (m / 100000 % 10), Nat.digitChar (m / 10000 % 10),
    Nat.digitChar (m / 1000 % 10), Nat.digitChar (m / 100 % 10),
    Nat.digitChar (m / 10 % 10), Nat.digitChar (m % 10)]

/-- format(float(x), ".8f") (search.py line 58): optional sign, integer part,
a dot, then exactly eight fractional digits. -/
def format8f (q : ℚ) : String :=
  let m := roundHalfEven8 q
  let a := m.natAbs
  let sign := if q.num < 0 then "-" else ""
  sign ++ Nat.repr (a / 100000000) ++ "." ++ frac8 (a % 100000000)

/-- to_pgvector of search.py lines 56-59 (identical in search_combined.py
lines 40-42): a bracketed comma-separated literal whose components are
rendered by format(float(x), ".8f"). -/
def to_pgvector (embedding : List ℚ) : String :=
  "[" ++ String.intercalate "," (embedding.map format8f) ++ "]"

/-- Left-pad a string with zeros to the given width (Python zfill). -/
def zfill (w : Nat) (s : String) : String :=
  String.mk (List.replicate (w - s.length) '0') ++ s

/-- Modelled collaborator: Python str() applied to a float renders the
shortest decimal that round-trips; for floats whose value is exactly a short
decimal (such as 0.5) this is that exact decimal with trailing zeros
stripped, and integral floats render with one fractional digit ("3.0").
Embedded for rationals by taking the fewest fractional digits (at least one,
at most seventeen) that represent the value exactly; scientific notation for
very small or large magnitudes is not modelled (no theorem below evaluates it
there). -/
def pyFloatStr (q : ℚ) : String :=
  let k := (((List.range 17).map (· + 1)).find?
    (fun k => q.num * 10 ^ k % (q.den : Int) = 0)).getD 17
  let m := Int.fdiv (q.num * 10 ^ k) (q.den : Int)
  let a := m.natAbs
  let sign := if q.num < 0 then "-" else ""
  sign ++ Nat.repr (a / 10 ^ k) ++ "." ++ zfill k (Nat.repr (a % 10 ^ k))

/-- _vec_to_pg_literal of app/services/utils.py lines 6-8 and
app/services/articles.py lines 218-220: "[" + ",".join(map(str, vec)) + "]",
the components rendered by plain str(). -/
def _vec_to_pg_literal (vec : List ℚ) : String :=
  "[" ++ String.intercalate "," (vec.map pyFloatStr) ++ "]"

/-! ### The two-stage hybrid search engine -/

/-- A row of the stage-1 candidate query of combined_search: article id,
title, date (opaque to the algorithm, kept as a string), release_number, and
the vector distance computed in the database. -/
structure CandidateRow where
  id : Nat
  title : String
  date : String
  release_number : Option Int
  distance : ℚ
deriving DecidableEq

/-- A row of the stage-2 full-text query: article id and the ts_rank_cd score
(NULL modelled as none). -/
structure FtRow where
  id : Nat
  ft_score : Option ℚ
deriving DecidableEq

/-- ArticleMeta of app/models/schemas.py: the projection returned by the
ranking operations, with the pydantic defaults for the fields combined_search
does not populate. -/
structure ArticleMeta where
  id : Nat
  title : String
  date : String
  release_number : Option Int
  topic_name : Option String := none
  keywords : List String := []
  tags : List String := []
  summary : Option String := none
  score : Option ℚ := none
deriving DecidableEq

/-- Insert into a Python dict modelled as an association list: a later
duplicate key overwrites in place, a fresh key appends. -/
def dictInsert (d : List (Nat × ℚ)) (k : Nat) (v : ℚ) : List (Nat × ℚ) :=
  if d.any (fun p => p.1 == k) then
    d.map (fun p => if p.1 = k then (k, v) else p)
  else d ++ [(k, v)]

/-- The dict comprehension of search.py line 102: ft_scores maps each id of
ft_rows to float(ft_score or 0.0) — a NULL or 0.0 rank becomes 0.0. -/
def ftScoreDict (ft_rows : List FtRow) : List (Nat × ℚ) :=
  ft_rows.foldl (fun d r => dictInsert d r.id (r.ft_score.getD 0)) []

/-- ft_scores.get(aid, 0.0): dict lookup with default 0.0. -/
def dictGet (d : List (Nat × ℚ)) (k : Nat) : ℚ :=
  ((d.find? (fun p => p.1 == k)).map Prod.snd).getD 0

/-- Python max() over a non-empty list of rationals (0 for the empty list,
which search.py guards separately). -/
def listMaxQ : List ℚ → ℚ
  | [] => 0
  | v :: vs => vs.foldl max v

/-- search.py line 115: emb_sim = 1.0 / (1.0 + distance), the
distance-to-similarity transform. -/
def emb_similarity (distance : ℚ) : ℚ := 1 / (1 + distance)

/-- search.py line 120: final_score = alpha * emb_sim + (1.0 - alpha) * ft_norm. -/
def fused_score (alpha emb_sim ft_norm : ℚ) : ℚ :=
  alpha * emb_sim + (1 - alpha) * ft_norm

/-- The descending-by-score comparison of results.sort(key=lambda x: x.score,
reverse=True) (search.py line 137) and rows.sort(key=lambda x: (x.score or
0.0), reverse=True) (search_combined.py line 96); every row constructed by
either search carries a populated score, which the getD unwraps. -/
def scoreKeyLe (a b : ArticleMeta) : Bool :=
  decide (b.score.getD 0 ≤ a.score.getD 0)

/-- combined_search of app/services/search.py lines 31-138.  The embedding
provider has already produced emb (an empty embedding short-circuits to []);
vecQuery is the stage-1 nearest-neighbour query (taking the vector literal
and the LIMIT) and ftQuery the stage-2 ts_rank_cd query (taking the query
text and the candidate id set), both oracle parameters for the database.
Stage-1 candidates are scored by fusing the distance-derived similarity with
the max-normalized full-text score, sorted descending, and truncated to
limit. -/
def combined_search (vecQuery : String → Int → List CandidateRow)
    (ftQuery : String → List Nat → List FtRow)
    (emb : List ℚ) (query : String) (limit : Nat) (preselect : Int)
    (alpha : ℚ) : List ArticleMeta :=
  if emb = [] then []
  else
    let emb_literal := to_pgvector emb
    let preselect := max 10 (min preselect 2000)
    let candidates := vecQuery emb_literal preselect
    if candidates = [] then []
    else
      let ids := candidates.map (fun r => r.id)
      let ft_rows := ftQuery query ids
      let ft_scores := ftScoreDict ft_rows
      let max_ft0 := if ft_scores = [] then 0 else listMaxQ (ft_scores.map Prod.snd)
      let max_ft := if max_ft0 ≤ 0 then 1 else max_ft0
      let results := candidates.map (fun r =>
        let distance := r.distance
        let emb_sim := emb_similarity distance
        let ft_raw := dictGet ft_scores r.id
        let ft_norm := ft_raw / max_ft
        ({ id := r.id, title := r.title, date := r.date,
           release_number := r.release_number,
           score := some (fused_score alpha emb_sim ft_norm) } : ArticleMeta))
      let sorted := results.mergeSort scoreKeyLe
      sorted.take limit

/-- combined_search of app/services/search_combined.py lines 28-97: identical
stage 1 and clamping, but the full-text signal is normalized by the
saturating sigmoid 1/(1 + exp(-5 * ft_score)) (math.exp is the oracle
parameter pyexp), and the sorted rows are returned WITHOUT truncation to
limit — the [:limit] slice lives only in this variant's agent wrapper. -/
def combined_search_v2 (vecQuery : String → Int → List CandidateRow)
    (ftQuery : String → List Nat → List FtRow) (pyexp : ℚ → ℚ)
    (emb : List ℚ) (query : String) (limit : Nat) (preselect : Int)
    (alpha : ℚ) : List ArticleMeta :=
  if emb = [] then []
  else
    let emb_literal := to_pgvector emb
    let preselect := max 10 (min preselect 2000)
    let candidates := vecQuery emb_literal preselect
    if candidates = [] then []
    else
      let ids := candidates.map (fun r => r.id)
      let ft_rows := ftQuery query ids
      let ft_scores := ftScoreDict ft_rows
      let rows := candidates.map (fun r =>
        let distance := r.distance
        let ft_score := dictGet ft_scores r.id
        let similarity := emb_similarity distance
        let score := alpha * similarity + (1 - alpha) * (1 / (1 + pyexp (-5 * ft_score)))
        ({ id := r.id, title := r.title, date := r.date,
           release_number := r.release_number,
           score := some score } : ArticleMeta))
      rows.mergeSort scoreKeyLe

/-- One hit of the agent-facing search result: the projection
{id, title, date, score} built by combined_search_agent. -/
structure AgentHit where
  id : Nat
  title : String
  date : String
  score : Option ℚ
deriving DecidableEq

/-- combined_search_agent of search_combined.py lines 11-25 on the success
path: the [:limit] slice and field projection applied to combined_search's
rows (the try/except error wrapping is the caller's error path, not the
result shape). -/
def combined_search_agent_v2 (vecQuery : String → Int → List CandidateRow)
    (ftQuery : String → List Nat → List FtRow) (pyexp : ℚ → ℚ)
    (emb : List ℚ) (query : String) (limit : Nat) (preselect : Int)
    (alpha : ℚ) : List AgentHit :=
  ((combined_search_v2 vecQuery ftQuery pyexp emb query limit preselect alpha).take
      limit).map (fun r => ⟨r.id, r.title, r.date, r.score⟩)

/-! ### Related-articles queries -/

/-- A row of the articles table as consumed by the related-articles queries. -/
structure ArticleRow where
  id : Nat
  title : String
  date : String
  release_number : Option Int
deriving DecidableEq

/-- A row of the article_embeddings side table. -/
structure EmbRow where
  article_id : Nat
  embedding : List ℚ
deriving DecidableEq

/-- A row of the keywords table. -/
structure KwRow where
  article_id : Nat
  keyword : String
deriving DecidableEq

/-- One entry of the related list returned by get_related_articles_agent:
the selected a.id (an Option, because the semantic query LEFT JOINs articles)
and the relation score. -/
structure RelatedEntry where
  id : Option Nat
  score : ℚ
deriving DecidableEq

/-- The database tables the related-articles queries read.  Ids are primary
keys, so joins resolve an id with find? (first match). -/
structure RelDb where
  embRows : List EmbRow
  articles : List ArticleRow
  kwRows : List KwRow
  summaries : List (Nat × String)

/-- Count of distinct-article groups: GROUP BY a.id with COUNT(*) over a list
of joined article ids. -/
def groupCounts (l : List Nat) : List (Nat × Nat) :=
  l.dedup.map (fun x => (x, l.count x))

/-- get_related_articles_agent of app/services/relations.py lines 52-111.
The pgvector distance operator is the oracle dist (applied to the stored
embeddings; the literal round-trip through _vec_to_pg_literal/str is
identity at the database boundary).  The semantic branch LEFT JOINs articles
onto the embeddings of every OTHER article (WHERE e.article_id <> $2) and
returns the top_n nearest ids; the keywords branch counts shared keywords
over articles OTHER than the queried one (AND a.id <> $1).  The Python
return value wraps this list as {"related": [...]} (and returns a bare []
when the queried article has no embedding); the wrapper is dropped here, the
entry list is what the claims inspect. -/
def get_related_articles_agent (db : RelDb) (dist : List ℚ → List ℚ → ℚ)
    (article_id : Nat) (method : String) (top_n : Nat) : List RelatedEntry :=
  if method = "semantic" then
    match db.embRows.find? (fun e => e.article_id == article_id) with
    | none => []
    | some emb_row =>
      let rows := (db.embRows.filter (fun e => e.article_id != article_id)).map
        (fun e =>
          (((db.articles.find? (fun a => a.id == e.article_id)).map
              (fun a => a.id)),
            dist e.embedding emb_row.embedding))
      let sorted := rows.mergeSort (fun a b => decide (a.2 ≤ b.2))
      (sorted.take top_n).map (fun p => { id := p.1, score := p.2 })
  else
    let src_kws := (db.kwRows.filter (fun k => k.article_id == article_id)).map
      (fun k => k.keyword)
    let joined := db.kwRows.filterMap (fun k =>
      if src_kws.contains k.keyword then
        (db.articles.find? (fun a => a.id == k.article_id)).bind
          (fun a => if a.id ≠ article_id then some a.id else none)
      else none)
    let grouped := groupCounts joined
    let sorted := grouped.mergeSort (fun a b => decide (b.2 ≤ a.2))
    (sorted.take top_n).map (fun p => { id := some p.1, score := (p.2 : ℚ) })

/-- Sequence a list of optional values: the Python list comprehension
ArticleMeta(**dict(r)) raising (pydantic validation) on the first row with a
NULL id makes the whole call raise, i.e. yields none. -/
def seqOpt {α : Type} : List (Option α) → Option (List α)
  | [] => some []
  | none :: _ => none
  | some a :: rest => (seqOpt rest).map (fun r => a :: r)

/-- Keep one representative joined (article, summary) pair per article id
(GROUP BY a.id, a.title, s.summary). -/
def dedupByArtId : List (ArticleRow × String) → List (ArticleRow × String)
  | [] => []
  | x :: rest =>
    let r := dedupByArtId rest
    if r.any (fun y => y.1.id == x.1.id) then r else x :: r

/-- get_related_articles of app/services/articles_related.py lines 10-45.
Same exclusion filters as the agent variant (e.article_id <> $2, a.id <> $1),
but the semantic branch orders by score DESC, also LEFT JOINs summaries, and
builds ArticleMeta rows — a LEFT-JOIN row whose article is missing carries a
NULL id and makes the pydantic construction raise, modelled as none.  The
keywords branch INNER JOINs articles and summaries. -/
def get_related_articles (db : RelDb) (dist : List ℚ → List ℚ → ℚ)
    (article_id : Nat) (method : String) (top_n : Nat) :
    Option (List ArticleMeta) :=
  if method = "semantic" then
    match db.embRows.find? (fun e => e.article_id == article_id) with
    | none => some []
    | some emb_row =>
      let rows := (db.embRows.filter (fun e => e.article_id != article_id)).map
        (fun e =>
          ((db.articles.find? (fun a => a.id == e.article_id)),
            dist e.embedding emb_row.embedding))
      let sorted := rows.mergeSort (fun a b => decide (b.2 ≤ a.2))
      seqOpt ((sorted.take top_n).map (fun p => p.1.map (fun a =>
        ({ id := a.id, title := a.title, date := a.date,
           release_number := a.release_number,
           summary := (db.summaries.find? (fun s => s.1 == a.id)).map Prod.snd,
           score := some p.2 } : ArticleMeta))))
  else
    let src_kws := (db.kwRows.filter (fun k => k.article_id == article_id)).map
      (fun k => k.keyword)
    let joined := db.kwRows.filterMap (fun k =>
      if src_kws.contains k.keyword then
        (db.articles.find? (fun a => a.id == k.article_id)).bind (fun a =>
          if a.id ≠ article_id then
            (db.summaries.find? (fun s => s.1 == a.id)).map (fun s => (a, s.2))
          else none)
      else none)
    let grouped := (dedupByArtId joined).map (fun p =>
      (p, joined.countP (fun y => y.1.id == p.1.id)))
    let sorted := grouped.mergeSort (fun a b => decide (b.2 ≤ a.2))
    some ((sorted.take top_n).map (fun p =>
      ({ id := p.1.1.id, title := p.1.1.title, date := p.1.1.date,
         release_number := p.1.1.release_number, summary := some p.1.2,
         score := some ((p.2 : ℚ)) } : ArticleMeta)))

/-! ### The sortedness predicate for search results -/

/-- A result list is sorted by final score in descending order. -/
def sortedByScoreDesc (l : List ArticleMeta) : Prop :=
  l.Sorted (fun a b => b.score.getD 0 ≤ a.score.getD 0)

/-! ### Concrete instantiations used to exercise the theorems -/

/-- An argument parser that accepts everything with empty kwargs. -/
def stub_parse : String → Except String Kwargs := fun _ => Except.ok []

/-- A tool that returns an empty dict. -/
def stub_tool : ToolFn := fun _ => Except.ok (PyVal.dict [])

/-- A model stub that always requests one tool call and never returns
content. -/
def stub_tool_model : Nat → List ChatMsg → AssistantMsg :=
  fun _ _ => ⟨"", [⟨"call_1", "combined_search", "\x7b\x7d"⟩]⟩

/-- An assistant message carrying two tool-call requests and no content. -/
def two_calls_msg : AssistantMsg :=
  ⟨"", [⟨"a1", "fetch_articles", "x"⟩, ⟨"a2", "fetch_articles", "y"⟩]⟩

/-- A model stub that always answers with two tool calls. -/
def two_calls_model : Nat → List ChatMsg → AssistantMsg := fun _ _ => two_calls_msg

/-- A tool-call request whose function name is not in the registry. -/
def unknown_call : ToolCall := ⟨"u1", "combined_searc", "x"⟩

/-- A model stub that requests one unknown tool. -/
def unknown_model : Nat → List ChatMsg → AssistantMsg :=
  fun _ _ => ⟨"", [unknown_call]⟩

/-- The legacy loop's model stub: turn 0 asks for combined_search (absent
from agent.py's FUNCTIONS, which registers only fetch_articles and
get_related_articles), every later turn would finish with an answer. -/
def v1_stub_model : Nat → List V1HistEntry → V1Action
  | 0, _ => V1Action.callFn "combined_search" []
  | _, _ => V1Action.finish "готово"

/-- agent.py's FUNCTIONS registry (lines 14-72): fetch_articles and
get_related_articles only. -/
def v1_functions : String → Option ToolFn :=
  fun name =>
    if name = "fetch_articles" then some stub_tool
    else if name = "get_related_articles" then some stub_tool
    else none

/-- A stage-1 oracle returning no candidates. -/
def empty_vec_query : String → Int → List CandidateRow := fun _ _ => []

/-- A stage-1 oracle returning two candidate rows. -/
def two_rows_vec : String → Int → List CandidateRow :=
  fun _ _ => [⟨1, "a", "2020-01-01", none, mkRat 1 1⟩,
    ⟨2, "b", "2020-01-02", none, mkRat 2 1⟩]

/-- A two-article database for the related-articles theorems: both articles
share an embedding and the keyword "k"; article 2 has a summary. -/
def wdb : RelDb :=
  ⟨[⟨1, [mkRat 1 1]⟩, ⟨2, [mkRat 1 1]⟩],
   [⟨1, "a", "d", none⟩, ⟨2, "b", "d", none⟩],
   [⟨1, "k"⟩, ⟨2, "k"⟩],
   [(2, "s")]⟩

/-- A constant distance oracle. -/
def wdist : List ℚ → List ℚ → ℚ := fun _ _ => mkRat 0 1

/-- The ArticleMeta that querying wdb for articles related to article 1 by
keywords yields: article 2 with its summary and a shared-keyword count of 1. -/
def wmeta : ArticleMeta :=
  { id := 2, title := "b", date := "d", release_number := none,
    summary := some "s", score := some 1 }

/-! ### Helper lemmas -/

/-- Dispatch always produces a tool-result message tagged with the
originating call's id and name. -/
lemma dispatch_shape (parseArgs : String → Except String Kwargs)
    (funcs : String → Option ToolFn) (tc : ToolCall) :
    ∃ r, dispatchToolCall parseArgs funcs tc = ChatMsg.tool tc.id tc.name r :=
  ⟨_, rfl⟩

/-- Against a model that never produces content, the loop consumes its whole
fuel, one inference call per unit. -/
lemma agent_loop_aux_exhaust (model : Nat → List ChatMsg → AssistantMsg)
    (parseArgs : String → Except String Kwargs) (funcs : String → Option ToolFn)
    (hm : ∀ t h, (model t h).content = "") :
    ∀ fuel history turn,
      agent_loop_aux model parseArgs funcs history turn fuel
        = (budget_fallback, turn + fuel) := by
  intro fuel
  induction fuel with
  | zero => intro h t; simp [agent_loop_aux]
  | succ n ih =>
    intro h t
    have h1 := hm t h
    simp only [agent_loop_aux, h1, ne_eq, not_true_eq_false, if_false]
    by_cases h2 : (model t h).tool_calls ≠ []
    · rw [if_pos h2, ih]
      congr 1
      omega
    · rw [if_neg h2, ih]
      congr 1
      omega

/-- A turn whose model response carries non-empty content returns that
content at once. -/
lemma agent_loop_aux_finish (model : Nat → List ChatMsg → AssistantMsg)
    (parseArgs : String → Except String Kwargs) (funcs : String → Option ToolFn)
    (history : List ChatMsg) (turn fuel : Nat)
    (hc : (model turn history).content ≠ "") :
    agent_loop_aux model parseArgs funcs history turn (fuel + 1)
      = ((model turn history).content, turn + 1) := by
  simp only [agent_loop_aux]
  rw [if_pos hc]

/-- A turn whose model response is empty content with a non-empty tool-call
list recurses on the stepHistory extension. -/
lemma agent_loop_aux_tools (model : Nat → List ChatMsg → AssistantMsg)
    (parseArgs : String → Except String Kwargs) (funcs : String → Option ToolFn)
    (history : List ChatMsg) (turn fuel : Nat)
    (hc : (model turn history).content = "")
    (ht : (model turn history).tool_calls ≠ []) :
    agent_loop_aux model parseArgs funcs history turn (fuel + 1)
      = agent_loop_aux model parseArgs funcs
          (stepHistory parseArgs funcs history (model turn history)) (turn + 1) fuel := by
  simp only [agent_loop_aux, hc, ne_eq, not_true_eq_false, if_false]
  rw [if_pos ht]

/-! ### C1: tool dispatch never raises -/

/-- C1. For every json.loads behaviour, every registry and every tool-call
request — including argument payloads that fail to parse and tools that raise
— the per-turn dispatch of agent_loop (agent_2.py lines 278-307) returns a
structured tool-result message tagged with the call's id, whose content is
either the structured error dict (for a parse failure, an unknown name, or a
raised exception — in the last case carrying exactly the exception's message)
or the tool's returned value; no exception propagates out of the dispatch,
so a single tool failure cannot abort the conversation turn. -/
theorem tool_dispatch_never_raises
    (parseArgs : String → Except String Kwargs) (funcs : String → Option ToolFn)
    (tc : ToolCall) :
    ∃ result, dispatchToolCall parseArgs funcs tc = ChatMsg.tool tc.id tc.name result ∧
      ((∃ msg, result = errDict msg) ∨
       (∃ fargs fn v, parseArgs tc.arguments = Except.ok fargs ∧
          funcs tc.name = some fn ∧ fn fargs = Except.ok v ∧ result = v)) ∧
      (∀ fargs fn e, parseArgs tc.arguments = Except.ok fargs →
        funcs tc.name = some fn → fn fargs = Except.error e → result = errDict e) := by
  cases hp : parseArgs tc.arguments with
  | error e =>
    refine ⟨errDict ("Ошибка разбора аргументов: " ++ e), ?_, Or.inl ⟨_, rfl⟩, ?_⟩
    · simp [dispatchToolCall, hp]
    · intro fargs fn e2 hp2 _ _
      cases hp2
  | ok fargs =>
    cases hf : funcs tc.name with
    | none =>
      refine ⟨errDict ("⚠️ Неизвестная функция: " ++ tc.name), ?_, Or.inl ⟨_, rfl⟩, ?_⟩
      · simp [dispatchToolCall, hp, hf]
      · intro fargs2 fn e hp2 hf2 _
        cases hf2
    | some fn =>
      cases hr : fn fargs with
      | ok v =>
        refine ⟨v, ?_, Or.inr ⟨fargs, fn, v, rfl, rfl, hr, rfl⟩, ?_⟩
        · simp [dispatchToolCall, hp, hf, hr]
        · intro fargs2 fn2 e hp2 hf2 hr2
          cases hp2
          cases hf2
          rw [hr] at hr2
          cases hr2
      | error e =>
        refine ⟨errDict e, ?_, Or.inl ⟨e, rfl⟩, ?_⟩
        · simp [dispatchToolCall, hp, hf, hr]
        · intro fargs2 fn2 e2 hp2 hf2 hr2
          cases hp2
          cases hf2
          rw [hr] at hr2
          cases hr2
          rfl

/-- Witness for C1: dispatching a concrete call whose underlying tool raises
"boom" yields the tool-result message with the structured error dict. -/
theorem tool_dispatch_never_raises_witness :
    ∃ result, dispatchToolCall stub_parse (fun _ => some (fun _ => Except.error "boom"))
        ⟨"c1", "fetch_articles", "x"⟩
      = ChatMsg.tool "c1" "fetch_articles" result ∧ result = errDict "boom" := by
  obtain ⟨r, h1, _, h3⟩ := tool_dispatch_never_raises stub_parse
    (fun _ => some (fun _ => Except.error "boom")) ⟨"c1", "fetch_articles", "x"⟩
  exact ⟨r, h1, h3 [] _ "boom" rfl rfl rfl⟩

/-! ### C2: the turn ceiling is absolute; non-empty content finishes at once -/

/-- C2. For a positive budget N: (a) against a model that on every turn
returns empty content (in particular one that always requests tool calls),
agent_loop performs exactly N model-inference calls and returns the fixed
budget-exhaustion fallback string; (b) at any reached loop state, a response
with non-empty content ends the loop on that very turn, returning the content
verbatim after exactly one further inference call; (c) in particular a model
whose first response carries non-empty content makes agent_loop return it
after exactly 1 inference call. -/
theorem agent_turn_budget (model : Nat → List ChatMsg → AssistantMsg)
    (parseArgs : String → Except String Kwargs) (funcs : String → Option ToolFn)
    (goal : String) (N : Nat) (hN : 0 < N) :
    ((∀ t h, (model t h).content = "" ∧ (model t h).tool_calls ≠ []) →
      agent_loop model parseArgs funcs goal N = (budget_fallback, N)) ∧
    (∀ history turn fuel, (model turn history).content ≠ "" →
      agent_loop_aux model parseArgs funcs history turn (fuel + 1)
        = ((model turn history).content, turn + 1)) ∧
    ((model 0 (seed_history goal N)).content ≠ "" →
      agent_loop model parseArgs funcs goal N
        = ((model 0 (seed_history goal N)).content, 1)) := by
  refine ⟨?_, ?_, ?_⟩
  · intro hm
    unfold agent_loop
    rw [agent_loop_aux_exhaust model parseArgs funcs (fun t h => (hm t h).1)]
    simp
  · intro history turn fuel hc
    exact agent_loop_aux_finish model parseArgs funcs history turn fuel hc
  · intro hc
    obtain ⟨M, rfl⟩ : ∃ M, N = M + 1 := ⟨N - 1, by omega⟩
    unfold agent_loop
    rw [agent_loop_aux_finish model parseArgs funcs _ 0 M hc]

/-- Witness for C2: with the concrete always-tool-calling stub and budget 3,
the loop returns the fallback after exactly 3 inference calls. -/
theorem agent_turn_budget_witness :
    0 < 3 ∧
    agent_loop stub_tool_model stub_parse (fun _ => none) "цель" 3
      = (budget_fallback, 3) :=
  ⟨by decide,
    (agent_turn_budget stub_tool_model stub_parse (fun _ => none) "цель" 3
        (by decide)).1
      (fun t h => ⟨rfl, by simp [stub_tool_model]⟩)⟩

/-! ### C3: message ordering after a tool-dispatching turn -/

/-- C3. On any turn whose model response has empty content and K requested
tool calls, the loop proceeds with the conversation state extended to exactly
history ++ assistant-tool-call-message :: K tool-result messages; the K
results are the dispatches of the K requests in identical order, and the
i-th tool-result message is tagged with the id (and name) of the i-th
requested call. -/
theorem turn_message_ordering (parseArgs : String → Except String Kwargs)
    (funcs : String → Option ToolFn) (model : Nat → List ChatMsg → AssistantMsg)
    (history : List ChatMsg) (msg : AssistantMsg) (turn fuel : Nat)
    (hmod : model turn history = msg) (hc : msg.content = "")
    (ht : msg.tool_calls ≠ []) :
    agent_loop_aux model parseArgs funcs history turn (fuel + 1)
      = agent_loop_aux model parseArgs funcs
          (stepHistory parseArgs funcs history msg) (turn + 1) fuel ∧
    stepHistory parseArgs funcs history msg
      = history ++ ChatMsg.assistant msg.content msg.tool_calls
          :: msg.tool_calls.map (dispatchToolCall parseArgs funcs) ∧
    (msg.tool_calls.map (dispatchToolCall parseArgs funcs)).length
      = msg.tool_calls.length ∧
    ∀ i (hi : i < msg.tool_calls.length), ∃ r,
      (msg.tool_calls.map (dispatchToolCall parseArgs funcs)).get
          ⟨i, by simpa using hi⟩
        = ChatMsg.tool (msg.tool_calls.get ⟨i, hi⟩).id
            (msg.tool_calls.get ⟨i, hi⟩).name r := by
  refine ⟨?_, ?_, by simp, ?_⟩
  · have h := agent_loop_aux_tools model parseArgs funcs history turn fuel
      (by rw [hmod]; exact hc) (by rw [hmod]; exact ht)
    rw [hmod] at h
    exact h
  · simp [stepHistory, List.append_assoc, List.singleton_append]
  · intro i hi
    simp only [List.get_eq_getElem, List.getElem_map]
    exact dispatch_shape parseArgs funcs _

/-- Witness for C3: a concrete two-call turn, with the resulting conversation
state spelled out by the theorem. -/
theorem turn_message_ordering_witness :
    two_calls_model 0 [] = two_calls_msg ∧
    two_calls_msg.content = "" ∧ two_calls_msg.tool_calls ≠ [] ∧
    stepHistory stub_parse (fun _ => none) [] two_calls_msg
      = [] ++ ChatMsg.assistant two_calls_msg.content two_calls_msg.tool_calls
          :: two_calls_msg.tool_calls.map
              (dispatchToolCall stub_parse (fun _ => none)) :=
  ⟨rfl, rfl, by simp [two_calls_msg],
    (turn_message_ordering stub_parse (fun _ => none) two_calls_model []
        two_calls_msg 0 0 rfl rfl (by simp [two_calls_msg])).2.1⟩

/-! ### C4: unknown tool names (amended claim) -/

/-- C4, amended.  In the current agent loop (agent_2.py, the one the HTTP
layer dispatches to), a requested tool name absent from the registry yields
the structured unknown-function error result: its tool-result message (tagged
with the call's id) is appended to the conversation state with the rest of
the turn's results, and the loop proceeds to the next inference turn rather
than halting.  (The superseded legacy loop in agent.py instead breaks — see
the accompanying counterexample.) -/
theorem unknown_tool_recovered (parseArgs : String → Except String Kwargs)
    (funcs : String → Option ToolFn) (model : Nat → List ChatMsg → AssistantMsg)
    (history : List ChatMsg) (msg : AssistantMsg) (turn fuel : Nat)
    (tc : ToolCall) (fargs : Kwargs)
    (hmod : model turn history = msg) (hc : msg.content = "")
    (htc : tc ∈ msg.tool_calls)
    (hparse : parseArgs tc.arguments = Except.ok fargs)
    (hunknown : funcs tc.name = none) :
    dispatchToolCall parseArgs funcs tc
      = ChatMsg.tool tc.id tc.name
          (errDict ("⚠️ Неизвестная функция: " ++ tc.name)) ∧
    ChatMsg.tool tc.id tc.name (errDict ("⚠️ Неизвестная функция: " ++ tc.name))
      ∈ stepHistory parseArgs funcs history msg ∧
    agent_loop_aux model parseArgs funcs history turn (fuel + 1)
      = agent_loop_aux model parseArgs funcs
          (stepHistory parseArgs funcs history msg) (turn + 1) fuel := by
  have hdisp : dispatchToolCall parseArgs funcs tc
      = ChatMsg.tool tc.id tc.name
          (errDict ("⚠️ Неизвестная функция: " ++ tc.name)) := by
    simp [dispatchToolCall, hparse, hunknown]
  have hne : msg.tool_calls ≠ [] := by
    intro h
    rw [h] at htc
    cases htc
  refine ⟨hdisp, ?_, ?_⟩
  · rw [stepHistory]
    rw [List.mem_append]
    right
    rw [List.mem_map]
    exact ⟨tc, htc, hdisp⟩
  · have h := agent_loop_aux_tools model parseArgs funcs history turn fuel
      (by rw [hmod]; exact hc) (by rw [hmod]; exact hne)
    rw [hmod] at h
    exact h

/-- Witness for C4's amended theorem: a concrete turn requesting the
unregistered name "combined_searc" against the real registry shape of
agent_2.py, producing the structured error message in the extended state. -/
theorem unknown_tool_recovered_witness :
    unknown_model 0 [] = ⟨"", [unknown_call]⟩ ∧
    unknown_call ∈ [unknown_call] ∧
    stub_parse unknown_call.arguments = Except.ok [] ∧
    FUNCTIONS stub_tool stub_tool stub_tool unknown_call.name = none ∧
    ChatMsg.tool unknown_call.id unknown_call.name
        (errDict ("⚠️ Неизвестная функция: " ++ unknown_call.name))
      ∈ stepHistory stub_parse (FUNCTIONS stub_tool stub_tool stub_tool) []
          ⟨"", [unknown_call]⟩ :=
  ⟨rfl, by simp, rfl, rfl,
    (unknown_tool_recovered stub_parse (FUNCTIONS stub_tool stub_tool stub_tool)
        unknown_model [] ⟨"", [unknown_call]⟩ 0 0 unknown_call [] rfl rfl
        (by simp) rfl rfl).2.1⟩

/-- Counterexample for C4 as stated: in the legacy agent loop of agent.py
(also cited by the claim), an unknown function name on turn 0 makes the loop
break — it returns the fallback string after exactly 1 of its 5 possible
inference calls, records no error result in the history, and never reaches
the turn-1 response that would have finished with an answer. -/
theorem unknown_tool_halts_legacy_loop :
    agent_loop_v1 v1_stub_model v1_functions = (budget_fallback, 1, []) ∧
    v1_stub_model 1 [] = V1Action.finish "готово" ∧
    budget_fallback ≠ "готово" :=
  ⟨rfl, rfl, by decide⟩

/-! ### C5: results sorted descending and truncated (amended claim) -/

/-- The descending score comparison is transitive. -/
lemma scoreKeyLe_trans (a b c : ArticleMeta) (hab : scoreKeyLe a b = true)
    (hbc : scoreKeyLe b c = true) : scoreKeyLe a c = true := by
  simp only [scoreKeyLe, decide_eq_true_eq] at *
  exact le_trans hbc hab

/-- The descending score comparison is total. -/
lemma scoreKeyLe_total (a b : ArticleMeta) :
    (scoreKeyLe a b || scoreKeyLe b a) = true := by
  simp only [scoreKeyLe, Bool.or_eq_true, decide_eq_true_eq]
  exact le_total _ _

/-- mergeSort with the descending score comparison yields a
descending-by-score list. -/
lemma sorted_mergeSort_score (l : List ArticleMeta) :
    sortedByScoreDesc (l.mergeSort scoreKeyLe) := by
  have h := @List.sorted_mergeSort _ scoreKeyLe scoreKeyLe_trans scoreKeyLe_total l
  exact h.imp (fun hab => by simpa [scoreKeyLe] using hab)

/-- A prefix of a descending list is descending. -/
lemma sorted_take (l : List ArticleMeta) (n : Nat) (h : sortedByScoreDesc l) :
    sortedByScoreDesc (l.take n) :=
  List.Pairwise.sublist (List.take_sublist n l) h

/-- C5, amended.  combined_search of search.py returns a sequence sorted by
final fused score in descending order with at most limit elements, for every
stage-1 outcome.  The variant combined_search of search_combined.py also
returns a descending sequence, but does NOT truncate it (it can return the
whole candidate window — see the counterexample); in that variant the
[:limit] truncation is applied by its agent wrapper combined_search_agent,
whose output again has at most limit elements. -/
theorem search_sorted_and_truncated
    (vecQuery : String → Int → List CandidateRow)
    (ftQuery : String → List Nat → List FtRow)
    (emb : List ℚ) (query : String) (limit : Nat) (preselect : Int) (alpha : ℚ) :
    sortedByScoreDesc (combined_search vecQuery ftQuery emb query limit preselect alpha) ∧
    (combined_search vecQuery ftQuery emb query limit preselect alpha).length ≤ limit ∧
    ∀ pyexp : ℚ → ℚ,
      sortedByScoreDesc
        (combined_search_v2 vecQuery ftQuery pyexp emb query limit preselect alpha) ∧
      (combined_search_agent_v2 vecQuery ftQuery pyexp emb query limit preselect
          alpha).length ≤ limit := by
  refine ⟨?_, ?_, fun pyexp => ⟨?_, ?_⟩⟩
  · by_cases h1 : emb = []
    · simp [combined_search, h1, sortedByScoreDesc]
    · by_cases h2 : vecQuery (to_pgvector emb) (max 10 (min preselect 2000)) = []
      · simp [combined_search, h1, h2, sortedByScoreDesc]
      · simp only [combined_search, if_neg h1, if_neg h2]
        exact sorted_take _ _ (sorted_mergeSort_score _)
  · by_cases h1 : emb = []
    · simp [combined_search, h1]
    · by_cases h2 : vecQuery (to_pgvector emb) (max 10 (min preselect 2000)) = []
      · simp [combined_search, h1, h2]
      · simp only [combined_search, if_neg h1, if_neg h2]
        rw [List.length_take]
        exact min_le_left _ _
  · by_cases h1 : emb = []
    · simp [combined_search_v2, h1, sortedByScoreDesc]
    · by_cases h2 : vecQuery (to_pgvector emb) (max 10 (min preselect 2000)) = []
      · simp [combined_search_v2, h1, h2, sortedByScoreDesc]
      · simp only [combined_search_v2, if_neg h1, if_neg h2]
        exact sorted_mergeSort_score _
  · simp only [combined_search_agent_v2]
    rw [List.length_map, List.length_take]
    exact min_le_left _ _

/-- Witness for C5's amended theorem at a concrete two-candidate window with
limit 1. -/
theorem search_sorted_and_truncated_witness :
    sortedByScoreDesc (combined_search two_rows_vec (fun _ _ => [])
      [mkRat 1 1] "q" 1 200 (mkRat 7 10)) ∧
    (combined_search two_rows_vec (fun _ _ => [])
      [mkRat 1 1] "q" 1 200 (mkRat 7 10)).length ≤ 1 ∧
    ∀ pyexp : ℚ → ℚ,
      sortedByScoreDesc (combined_search_v2 two_rows_vec (fun _ _ => []) pyexp
        [mkRat 1 1] "q" 1 200 (mkRat 7 10)) ∧
      (combined_search_agent_v2 two_rows_vec (fun _ _ => []) pyexp
        [mkRat 1 1] "q" 1 200 (mkRat 7 10)).length ≤ 1 :=
  search_sorted_and_truncated two_rows_vec (fun _ _ => [])
    [mkRat 1 1] "q" 1 200 (mkRat 7 10)

/-- Counterexample for C5 as stated: with a non-empty stage-1 window of two
candidates and limit = 1, the search_combined.py variant returns 2 results —
more than limit. -/
theorem v2_search_exceeds_limit :
    1 < (combined_search_v2 two_rows_vec (fun _ _ => []) (fun _ => mkRat 1 1)
        [mkRat 1 1] "q" 1 200 (mkRat 7 10)).length := by
  have h1 : ([mkRat 1 1] : List ℚ) ≠ [] := by simp
  have h2 : two_rows_vec (to_pgvector [mkRat 1 1]) (max 10 (min 200 2000)) ≠ [] := by
    simp [two_rows_vec]
  simp only [combined_search_v2, if_neg h1, if_neg h2]
  rw [List.length_mergeSort, List.length_map]
  simp [two_rows_vec]

/-! ### C6: preselect clamping -/

/-- C6. Stage-1 retrieval is invoked with the effective window
max(10, min(X, 2000)) regardless of the caller-supplied X, in both search
variants: two stage-1 oracles that agree at that single window value give
identical search output (the window is the only point at which stage 1 is
consulted); the effective window always lies between 10 and 2000 and equals
X whenever X is already in that range. -/
theorem preselect_clamped (vec1 vec2 : String → Int → List CandidateRow)
    (ftQuery : String → List Nat → List FtRow) (emb : List ℚ) (query : String)
    (limit : Nat) (X : Int) (alpha : ℚ)
    (hvec : vec1 (to_pgvector emb) (max 10 (min X 2000))
      = vec2 (to_pgvector emb) (max 10 (min X 2000))) :
    combined_search vec1 ftQuery emb query limit X alpha
      = combined_search vec2 ftQuery emb query limit X alpha ∧
    (∀ pyexp : ℚ → ℚ,
      combined_search_v2 vec1 ftQuery pyexp emb query limit X alpha
        = combined_search_v2 vec2 ftQuery pyexp emb query limit X alpha) ∧
    (10 : Int) ≤ max 10 (min X 2000) ∧ max 10 (min X 2000) ≤ (2000 : Int) ∧
    (10 ≤ X → X ≤ 2000 → max 10 (min X 2000) = X) := by
  refine ⟨?_, fun pyexp => ?_, le_max_left _ _, ?_, ?_⟩
  · simp only [combined_search]
    rw [hvec]
  · simp only [combined_search_v2]
    rw [hvec]
  · omega
  · intro h1 h2
    omega

/-- Witness for C6: two (equal) oracles agreeing at the clamped window of
X = 50, with the search outputs equal and the window bounds instantiated. -/
theorem preselect_clamped_witness :
    empty_vec_query (to_pgvector [mkRat 1 1]) (max 10 (min 50 2000))
      = empty_vec_query (to_pgvector [mkRat 1 1]) (max 10 (min 50 2000)) ∧
    combined_search empty_vec_query (fun _ _ => []) [mkRat 1 1] "q" 5 50 (mkRat 1 2)
      = combined_search empty_vec_query (fun _ _ => []) [mkRat 1 1] "q" 5 50 (mkRat 1 2) ∧
    (10 : Int) ≤ max 10 (min 50 2000) ∧ max 10 (min 50 2000) ≤ (2000 : Int) :=
  ⟨rfl,
    (preselect_clamped empty_vec_query empty_vec_query (fun _ _ => [])
        [mkRat 1 1] "q" 5 50 (mkRat 1 2) rfl).1,
    (preselect_clamped empty_vec_query empty_vec_query (fun _ _ => [])
        [mkRat 1 1] "q" 5 50 (mkRat 1 2) rfl).2.2.1,
    (preselect_clamped empty_vec_query empty_vec_query (fun _ _ => [])
        [mkRat 1 1] "q" 5 50 (mkRat 1 2) rfl).2.2.2.1⟩

/-! ### C7: empty-candidate short-circuit -/

/-- C7. If the stage-1 candidate query returns no rows at the effective
window, both search variants return the empty sequence, and they do so for
EVERY stage-2 oracle — the full-text scoring query is never consulted. -/
theorem empty_candidates_short_circuit
    (vecQuery : String → Int → List CandidateRow) (emb : List ℚ)
    (query : String) (limit : Nat) (X : Int) (alpha : ℚ)
    (hvec : vecQuery (to_pgvector emb) (max 10 (min X 2000)) = []) :
    (∀ ftQuery, combined_search vecQuery ftQuery emb query limit X alpha = []) ∧
    (∀ ftQuery (pyexp : ℚ → ℚ),
      combined_search_v2 vecQuery ftQuery pyexp emb query limit X alpha = []) := by
  constructor
  · intro ftQuery
    by_cases h1 : emb = []
    · simp [combined_search, h1]
    · simp [combined_search, h1, hvec]
  · intro ftQuery pyexp
    by_cases h1 : emb = []
    · simp [combined_search_v2, h1]
    · simp [combined_search_v2, h1, hvec]

/-- Witness for C7: a concrete empty stage-1 oracle; the searches return []
for a concrete stage-2 oracle. -/
theorem empty_candidates_short_circuit_witness :
    empty_vec_query (to_pgvector [mkRat 1 1]) (max 10 (min 200 2000)) = [] ∧
    combined_search empty_vec_query (fun _ _ => [⟨7, some (mkRat 1 1)⟩])
        [mkRat 1 1] "q" 20 200 (mkRat 7 10) = [] :=
  ⟨rfl,
    (empty_candidates_short_circuit empty_vec_query [mkRat 1 1] "q" 20 200
        (mkRat 7 10) rfl).1 (fun _ _ => [⟨7, some (mkRat 1 1)⟩])⟩

/-! ### C8: similarity transform and score-fusion bounds -/

/-- C8. The distance-to-similarity transform 1/(1+d) of combined_search is
strictly decreasing on the non-negative distances, with values in (0, 1];
consequently, for every alpha in [0,1] and every normalized full-text value
in [0,1], the fused score alpha * similarity + (1-alpha) * normalized lies in
[0,1]. -/
theorem similarity_monotone_fusion_bounded :
    (∀ d1 d2 : ℚ, 0 ≤ d1 → d1 < d2 → emb_similarity d2 < emb_similarity d1) ∧
    (∀ d : ℚ, 0 ≤ d → 0 < emb_similarity d ∧ emb_similarity d ≤ 1) ∧
    (∀ alpha s f : ℚ, 0 ≤ alpha → alpha ≤ 1 → 0 < s → s ≤ 1 → 0 ≤ f → f ≤ 1 →
      0 ≤ fused_score alpha s f ∧ fused_score alpha s f ≤ 1) := by
  refine ⟨?_, ?_, ?_⟩
  · intro d1 d2 h0 hlt
    unfold emb_similarity
    exact one_div_lt_one_div_of_lt (by linarith) (by linarith)
  · intro d h0
    unfold emb_similarity
    constructor
    · exact one_div_pos.mpr (by linarith)
    · rw [div_le_one (by linarith)]
      linarith
  · intro a s f ha0 ha1 hs0 hs1 hf0 hf1
    unfold fused_score
    constructor
    · have hx := mul_nonneg ha0 hs0.le
      have hy := mul_nonneg (by linarith : (0:ℚ) ≤ 1 - a) hf0
      linarith
    · have hx : a * s ≤ a * 1 := mul_le_mul_of_nonneg_left hs1 ha0
      have hy : (1 - a) * f ≤ (1 - a) * 1 :=
        mul_le_mul_of_nonneg_left hf1 (by linarith)
      linarith

/-- Witness for C8 at distances 0 < 1 and the fusion at alpha = 1, s = 1,
f = 0. -/
theorem similarity_monotone_fusion_bounded_witness :
    (0:ℚ) ≤ 0 ∧ (0:ℚ) < 1 ∧
    emb_similarity 1 < emb_similarity 0 ∧
    (0 < emb_similarity 0 ∧ emb_similarity 0 ≤ 1) ∧
    (0 ≤ fused_score 1 1 0 ∧ fused_score 1 1 0 ≤ 1) :=
  ⟨by norm_num, by norm_num,
    similarity_monotone_fusion_bounded.1 0 1 (by norm_num) (by norm_num),
    similarity_monotone_fusion_bounded.2.1 0 (by norm_num),
    similarity_monotone_fusion_bounded.2.2 1 1 0 (by norm_num) (by norm_num)
      (by norm_num) (by norm_num) (by norm_num) (by norm_num)⟩

/-! ### C9: vector-literal encoding (amended claim) -/

/-- C9, amended.  The hybrid search's encoder to_pgvector produces
'[' ++ comma-separated components ++ ']' in which every component is rendered
with a fixed decimal precision of exactly 8 fractional digits.  (The
repository's other vector-literal encoder, _vec_to_pg_literal, produces the
same bracketed comma-separated shape but renders components with plain str(),
which does not use a fixed 8-digit precision — see the counterexample.) -/
theorem to_pgvector_bracketed_fixed8 (v : List ℚ) :
    to_pgvector v = "[" ++ String.intercalate "," (v.map format8f) ++ "]" ∧
    (∀ q ∈ v, ∃ ip fr, format8f q = ip ++ "." ++ fr ∧ fr.length = 8) ∧
    _vec_to_pg_literal v = "[" ++ String.intercalate "," (v.map pyFloatStr) ++ "]" := by
  refine ⟨rfl, ?_, rfl⟩
  intro q _
  refine ⟨(if q.num < 0 then "-" else "")
      ++ Nat.repr ((roundHalfEven8 q).natAbs / 100000000),
    frac8 ((roundHalfEven8 q).natAbs % 100000000), ?_, ?_⟩
  · simp only [format8f]
  · rfl

/-- Witness for C9's amended theorem at the vector [1/2]: the literal shape
and the 8-fractional-digit component rendering. -/
theorem to_pgvector_bracketed_fixed8_witness :
    to_pgvector [mkRat 1 2]
      = "[" ++ String.intercalate "," ([mkRat 1 2].map format8f) ++ "]" ∧
    (∃ ip fr, format8f (mkRat 1 2) = ip ++ "." ++ fr ∧ fr.length = 8) ∧
    format8f (mkRat 1 2) = "0.50000000" :=
  ⟨(to_pgvector_bracketed_fixed8 [mkRat 1 2]).1,
    (to_pgvector_bracketed_fixed8 [mkRat 1 2]).2.1 (mkRat 1 2) (by simp),
    by decide⟩

/-- Counterexample for C9 as stated: the encoder _vec_to_pg_literal of
app/services/utils.py and app/services/articles.py (used by the live
related-articles path) renders str(0.5) = "0.5" — the component has 1
fractional digit, not a fixed precision of 8. -/
theorem str_encoder_not_fixed8 :
    _vec_to_pg_literal [mkRat 1 2] = "[0.5]" ∧
    pyFloatStr (mkRat 1 2) = "0.5" ∧
    ¬ ∃ ip fr, pyFloatStr (mkRat 1 2) = ip ++ "." ++ fr ∧ fr.length = 8 := by
  refine ⟨by decide, by decide, ?_⟩
  rintro ⟨ip, fr, h, hlen⟩
  have h05 : pyFloatStr (mkRat 1 2) = "0.5" := by decide
  rw [h05] at h
  have hl := congrArg String.length h
  rw [String.length_append, String.length_append, hlen] at hl
  have h3 : ("0.5" : String).length = 3 := by decide
  have hdot : ("." : String).length = 1 := by decide
  rw [h3, hdot] at hl
  omega

/-! ### C10: related-articles never return the queried article itself -/

/-- Elements of a sequenced list of options all occur (wrapped in some) in
the original list. -/
lemma mem_seqOpt {α : Type} (xs : List (Option α)) (l : List α)
    (h : seqOpt xs = some l) : ∀ x ∈ l, some x ∈ xs := by
  induction xs generalizing l with
  | nil =>
    simp only [seqOpt, Option.some.injEq] at h
    subst h
    simp
  | cons hd tl ih =>
    cases hd with
    | none => simp [seqOpt] at h
    | some a =>
      simp only [seqOpt] at h
      obtain ⟨r, hr, rfl⟩ := Option.map_eq_some'.mp h
      intro x hx
      rcases List.mem_cons.mp hx with rfl | hx2
      · exact List.mem_cons_self _ _
      · exact List.mem_cons_of_mem _ (ih r hr x hx2)

/-- dedupByArtId only keeps elements of its input. -/
lemma mem_dedupByArtId (x : ArticleRow × String) :
    ∀ l, x ∈ dedupByArtId l → x ∈ l := by
  intro l
  induction l with
  | nil => intro h; simpa [dedupByArtId] using h
  | cons hd tl ih =>
    intro h
    simp only [dedupByArtId] at h
    split at h
    · exact List.mem_cons_of_mem _ (ih h)
    · rcases List.mem_cons.mp h with rfl | h2
      · exact List.mem_cons_self _ _
      · exact List.mem_cons_of_mem _ (ih h2)

/-- C10. For every database, distance oracle, queried article_id, method
string and top_n, neither related-articles operation ever returns the
queried article's own id: every entry of get_related_articles_agent
(app/services/relations.py) has id ≠ some article_id, and every ArticleMeta
of a successful get_related_articles call (app/services/articles_related.py)
has id ≠ article_id. -/
theorem related_articles_exclude_self (db : RelDb)
    (dist : List ℚ → List ℚ → ℚ) (article_id : Nat) (method : String)
    (top_n : Nat) :
    (∀ e ∈ get_related_articles_agent db dist article_id method top_n,
      e.id ≠ some article_id) ∧
    (∀ l, get_related_articles db dist article_id method top_n = some l →
      ∀ m ∈ l, m.id ≠ article_id) := by
  constructor
  · intro e he
    by_cases hm : method = "semantic"
    · rw [get_related_articles_agent, if_pos hm] at he
      cases hfind : db.embRows.find? (fun x => x.article_id == article_id) with
      | none => rw [hfind] at he; cases he
      | some emb_row =>
        rw [hfind] at he
        obtain ⟨p, hp, rfl⟩ := List.mem_map.mp he
        show p.1 ≠ some article_id
        have hp1 : p ∈ ((db.embRows.filter
            (fun x => x.article_id != article_id)).map (fun x =>
              (((db.articles.find? (fun a => a.id == x.article_id)).map
                  (fun a => a.id)), dist x.embedding emb_row.embedding))) := by
          have hs := (List.take_sublist top_n _).subset hp
          exact List.mem_mergeSort.mp hs
        obtain ⟨er, her, hpe⟩ := List.mem_map.mp hp1
        have hne : er.article_id ≠ article_id := by
          have h2 := (List.mem_filter.mp her).2
          simpa using h2
        cases hfa : db.articles.find? (fun a => a.id == er.article_id) with
        | none => rw [← hpe]; simp [hfa]
        | some a =>
          have ha : a.id = er.article_id := by
            simpa using List.find?_some hfa
          rw [← hpe]
          simp [hfa, ha, hne]
    · rw [get_related_articles_agent, if_neg hm] at he
      obtain ⟨p, hp, rfl⟩ := List.mem_map.mp he
      show some p.1 ≠ some article_id
      have hp1 : p ∈ groupCounts (db.kwRows.filterMap (fun k =>
          if ((db.kwRows.filter (fun x => x.article_id == article_id)).map
              (fun x => x.keyword)).contains k.keyword then
            (db.articles.find? (fun a => a.id == k.article_id)).bind
              (fun a => if a.id ≠ article_id then some a.id else none)
          else none)) := by
        have hs := (List.take_sublist top_n _).subset hp
        exact List.mem_mergeSort.mp hs
      obtain ⟨x, hx, hxp⟩ := List.mem_map.mp hp1
      have hxj := List.mem_dedup.mp hx
      obtain ⟨k, _, hk⟩ := List.mem_filterMap.mp hxj
      have hx1 : p.1 = x := by rw [← hxp]
      rw [hx1]
      intro hcontra
      rcases Option.some.injEq x article_id ▸ hcontra with rfl
      split at hk
      · cases hfa : db.articles.find? (fun a => a.id == k.article_id) with
        | none => rw [hfa] at hk; cases hk
        | some a =>
          rw [hfa] at hk
          simp only [Option.some_bind] at hk
          split at hk
          · cases hk
            simp_all
          · cases hk
      · cases hk
  · intro l hl m hml
    by_cases hm : method = "semantic"
    · rw [get_related_articles, if_pos hm] at hl
      cases hfind : db.embRows.find? (fun x => x.article_id == article_id) with
      | none =>
        rw [hfind] at hl
        cases hl
        cases hml
      | some emb_row =>
        rw [hfind] at hl
        have hsome := mem_seqOpt _ _ hl m hml
        obtain ⟨p, hp, hpm⟩ := List.mem_map.mp hsome
        obtain ⟨a, hpa, hma⟩ := Option.map_eq_some'.mp hpm
        have hp1 : p ∈ ((db.embRows.filter
            (fun x => x.article_id != article_id)).map (fun x =>
              ((db.articles.find? (fun a => a.id == x.article_id)),
                dist x.embedding emb_row.embedding))) := by
          have hs := (List.take_sublist top_n _).subset hp
          exact List.mem_mergeSort.mp hs
        obtain ⟨er, her, hpe⟩ := List.mem_map.mp hp1
        have hne : er.article_id ≠ article_id := by
          have h2 := (List.mem_filter.mp her).2
          simpa using h2
        have hfa : db.articles.find? (fun x => x.id == er.article_id) = some a := by
          rw [← hpe] at hpa
          exact hpa
        have ha : a.id = er.article_id := by
          simpa using List.find?_some hfa
        rw [← hma]
        simpa [ha] using hne
    · rw [get_related_articles, if_neg hm] at hl
      cases hl
      obtain ⟨p, hp, hpm⟩ := List.mem_map.mp hml
      have hp1 : p ∈ (dedupByArtId (db.kwRows.filterMap (fun k =>
          if ((db.kwRows.filter (fun x => x.article_id == article_id)).map
              (fun x => x.keyword)).contains k.keyword then
            (db.articles.find? (fun a => a.id == k.article_id)).bind (fun a =>
              if a.id ≠ article_id then
                (db.summaries.find? (fun s => s.1 == a.id)).map
                  (fun s => (a, s.2))
              else none)
          else none))).map (fun pr =>
            (pr, (db.kwRows.filterMap (fun k =>
              if ((db.kwRows.filter (fun x => x.article_id == article_id)).map
                  (fun x => x.keyword)).contains k.keyword then
                (db.articles.find? (fun a => a.id == k.article_id)).bind (fun a =>
                  if a.id ≠ article_id then
                    (db.summaries.find? (fun s => s.1 == a.id)).map
                      (fun s => (a, s.2))
                  else none)
              else none)).countP (fun y => y.1.id == pr.1.id))) := by
        have hs := (List.take_sublist top_n _).subset hp
        exact List.mem_mergeSort.mp hs
      obtain ⟨pr, hpr, hprp⟩ := List.mem_map.mp hp1
      have hprj := mem_dedupByArtId pr _ hpr
      obtain ⟨k, _, hk⟩ := List.mem_filterMap.mp hprj
      have hmid : m.id = pr.1.id := by
        rw [← hpm, ← hprp]
      rw [hmid]
      split at hk
      · cases hfa : db.articles.find? (fun a => a.id == k.article_id) with
        | none => rw [hfa] at hk; cases hk
        | some a =>
          rw [hfa] at hk
          simp only [Option.some_bind] at hk
          split at hk
          · obtain ⟨s, _, hs2⟩ := Option.map_eq_some'.mp hk
            cases hs2
            simp_all
          · cases hk
      · cases hk

/-- Witness for C10: on the concrete two-article database, querying article 1
returns exactly article 2 in both operations, and the theorem instantiates to
the returned entries not being article 1. -/
theorem related_articles_exclude_self_witness :
    get_related_articles_agent wdb wdist 1 "semantic" 10
      = [⟨some 2, mkRat 0 1⟩] ∧
    (⟨some 2, mkRat 0 1⟩ : RelatedEntry).id ≠ some 1 ∧
    get_related_articles wdb wdist 1 "keywords" 10 = some [wmeta] ∧
    wmeta.id ≠ 1 := by
  have h1 : get_related_articles_agent wdb wdist 1 "semantic" 10
      = [⟨some 2, mkRat 0 1⟩] := by
    simp [get_related_articles_agent, wdb, wdist, List.mergeSort_singleton]
  have h2 : get_related_articles wdb wdist 1 "keywords" 10 = some [wmeta] := by
    simp [get_related_articles, wdb, wdist, wmeta, dedupByArtId, seqOpt,
      List.mergeSort_singleton]
  refine ⟨h1, ?_, h2, ?_⟩
  · exact (related_articles_exclude_self wdb wdist 1 "semantic" 10).1 _
      (by rw [h1]; exact List.mem_singleton.mpr rfl)
  · exact (related_articles_exclude_self wdb wdist 1 "keywords" 10).2 _ h2 _
      (List.mem_singleton.mpr rfl)

end Qwerty
